import Mathlib

/-!
Verification of the `rsformat` library (`src/lib.rs`): a shallow embedding
of its hunk-batching loop (`format`), its subprocess invocation
(`format_now`), its child-awaiting error mapping (`await_child`), and the
JSON serialization of range descriptors, together with theorems settling
the specification claims.

The external world (process spawning, the child's exit status and its
standard-error stream) is modelled as an explicit oracle passed to the
embedded functions; machine integers (`usize` line numbers and counts)
are modelled as `Nat` (the claims do not hinge on overflow behaviour).
-/

set_option autoImplicit false

/-- A diff hunk side as produced by the external `diff_parse` collaborator
and consumed by `format` (`dst.file`, `dst.line`, `dst.count` in
`src/lib.rs`): the file path, the 1-based starting line, and the number of
lines covered. -/
structure File where
  file : String
  line : Nat
  count : Nat
  deriving DecidableEq, Repr

/-- The default tool name, `pub const RUSTFMT: &str = "rustfmt"`. -/
def RUSTFMT : String := "rustfmt"

/-- Embedding of `FormatDescriptor` from `src/lib.rs`: a file path plus an
inclusive line range (`RangeInclusive<usize>` becomes a start/end pair of
naturals). -/
structure FormatDescriptor where
  file : String
  range : Nat × Nat
  deriving DecidableEq, Repr

/-- The serde data model fragment relevant here, mirroring what the
derived `Serialize` implementation of `FormatDescriptor` produces:
strings, numbers, arrays (also used for the 2-tuple emitted by
`serialize_range`) and maps. Map keys are arbitrary values, as in serde:
`serde_json` rejects non-string keys at serialization time, which is the
one failure mode of `serde_json::to_string` that the `unwrap` in
`format_now` dismisses. -/
inductive Json where
  | str (s : String)
  | num (n : Nat)
  | arr (xs : List Json)
  | obj (kvs : List (Json × Json))

/-- One hexadecimal digit, lowercase, as `serde_json` prints control
character escapes. -/
def hexDigit (n : Nat) : Char :=
  if n < 10 then Char.ofNat (48 + n) else Char.ofNat (87 + n)

/-- JSON escaping of one character, as `serde_json` performs it: quote and
backslash get a backslash escape, control characters get their short
escapes or a `\u00xx` escape, everything else is emitted verbatim. -/
def escapeJsonChar (c : Char) : String :=
  if c = '"' then "\\\""
  else if c = '\\' then "\\\\"
  else if c.toNat ≥ 32 then String.singleton c
  else if c.toNat = 8 then "\\b"
  else if c.toNat = 9 then "\\t"
  else if c.toNat = 10 then "\\n"
  else if c.toNat = 12 then "\\f"
  else if c.toNat = 13 then "\\r"
  else "\\u00" ++ String.singleton (hexDigit (c.toNat / 16))
    ++ String.singleton (hexDigit (c.toNat % 16))

/-- JSON encoding of a string: escaped content between double quotes. -/
def encodeJsonString (s : String) : String :=
  "\"" ++ String.join (s.data.map escapeJsonChar) ++ "\""

/-- Join pre-serialized elements with the `,` separator, as serde_json's
compound serializers write them out. -/
def joinComma : List String → String
  | [] => ""
  | [s] => s
  | s :: rest => s ++ "," ++ joinComma rest

mutual

/-- Compact JSON serialization, as `serde_json::to_string` produces it.
Fails (with `none`) exactly when a map key is not a string, serde_json's
`key must be a string` error. -/
def serializeJson : Json → Option String
  | .str s => some (encodeJsonString s)
  | .num n => some (Nat.repr n)
  | .arr xs =>
    match serializeJsonArr xs with
    | some parts => some ("[" ++ joinComma parts ++ "]")
    | none => none
  | .obj kvs =>
    match serializeJsonObj kvs with
    | some parts => some ("\x7b" ++ joinComma parts ++ "\x7d")
    | none => none

/-- Serialize the elements of a JSON array. -/
def serializeJsonArr : List Json → Option (List String)
  | [] => some []
  | x :: xs =>
    match serializeJson x, serializeJsonArr xs with
    | some s, some rest => some (s :: rest)
    | _, _ => none

/-- Serialize the entries of a JSON map; fails on a non-string key. -/
def serializeJsonObj : List (Json × Json) → Option (List String)
  | [] => some []
  | (Json.str k, v) :: xs =>
    match serializeJson v, serializeJsonObj xs with
    | some vs, some rest => some ((encodeJsonString k ++ ":" ++ vs) :: rest)
    | _, _ => none
  | _ :: _ => none

end

/-- The JSON value a `FormatDescriptor` serializes to: the derived
`Serialize` emits the struct as a map with the `file` field first, then
the `range` field, whose custom serializer (`serialize_range`) emits the
inclusive bounds as a 2-tuple, i.e. a JSON array `[start, end]`. -/
def FormatDescriptor.toJson (d : FormatDescriptor) : Json :=
  .obj [(.str "file", .str d.file), (.str "range", .arr [.num d.range.1, .num d.range.2])]

/-- `serde_json::to_string(descrs)` for a slice of descriptors: the JSON
array of the individual descriptor objects. -/
def to_json (descrs : List FormatDescriptor) : Option String :=
  serializeJson (.arr (descrs.map FormatDescriptor.toJson))

/-- An I/O error as surfaced by the embedded functions: either an
`Error::other(message)` synthesized by `await_child`, or an abstract
operating-system error (spawn failure, wait failure, read failure),
identified by an opaque code so that "propagated unchanged" is
meaningful. -/
inductive IOError where
  | other (msg : String)
  | sys (code : Nat)
  deriving DecidableEq, Repr

/-- Rust's `str::trim` (for the ASCII whitespace that can occur here):
drop whitespace characters from both ends. -/
def trimChars (s : String) : String :=
  String.mk (((s.data.dropWhile Char.isWhitespace).reverse.dropWhile Char.isWhitespace).reverse)

/-- The captured standard-error pipe of a child: the outcome of the
single `BufRead::read_line` call `await_child` performs on it. `Except.ok
line` is a successful read (the line includes its terminating newline
when one was present; it is empty when the stream was at end-of-file),
`Except.error e` a failed read. -/
structure StderrReader where
  readLineResult : Except IOError String
  deriving Repr

/-- A spawned child process, as `await_child` observes it: the outcome of
`Child::wait` (an error, or an exit-status code where `0` means success),
and the optional captured standard output and standard error handles. -/
structure Child where
  waitResult : Except IOError Nat
  stdout : Option Unit := none
  stderr : Option StderrReader
  deriving Repr

/-- Embedding of `await_child` from `src/lib.rs`: wait for the child; on
a non-success exit status build the message ``process `<program>`
failed``, append `: <trimmed first stderr line>` when the stderr handle
exists and reading a line from it succeeds, and fail with
`Error::other`; on success return the child's standard output handle. -/
def await_child (program : String) (child : Child) : Except IOError (Option Unit) :=
  match child.waitResult with
  | .error e => .error e
  | .ok status =>
    if status ≠ 0 then
      let error := "process `" ++ program ++ "` failed"
      match child.stderr with
      | some stderr =>
        match stderr.readLineResult with
        | .ok line => .error (.other (error ++ ": " ++ trimChars line))
        | .error _ => .error (.other error)
      | none => .error (.other error)
    else
      .ok child.stdout

/-- How a child standard stream is set up, mirroring `std::process::Stdio`:
`Stdio::null()`, `Stdio::piped()` or inherited. -/
inductive Stdio where
  | null
  | piped
  | inherit
  deriving DecidableEq, Repr

/-- A fully configured command, as built by `format_now`: program name,
arguments in order, and the three standard stream configurations. -/
structure Command where
  program : String
  args : List String
  stdin : Stdio
  stdout : Stdio
  stderr : Stdio
  deriving DecidableEq, Repr

/-- The process-spawning capability of the host environment: maps a
configured command to either a launch error (`Command::spawn` failing) or
a spawned child. A pure oracle: the same command always gets the same
response, which suffices for every claim considered here. -/
def World : Type := Command → Except IOError Child

/-- Outcome of one step (or of the whole batching pass): success, an I/O
error propagated to the caller, or a panic (the `unwrap` in `format_now`
firing on a serialization failure). -/
inductive StepResult where
  | ok
  | ioErr (e : IOError)
  | panic
  deriving DecidableEq, Repr

/-- Embedding of the nested fn `format_now` of `format` in `src/lib.rs`:
serialize the descriptors (panicking if that fails, the `unwrap`), build
the command `rustfmt --unstable-features <file> --file-lines <json>` with
stdin null, stdout null and stderr piped, spawn it through the world
oracle (propagating a launch error unchanged), and await it through
`await_child`. Also returns the command that was spawned, when one was,
so that theorems can speak about the actual invocation. -/
def format_now (world : World) (file : String) (descrs : List FormatDescriptor) :
    StepResult × Option Command :=
  match to_json descrs with
  | none => (.panic, none)
  | some json =>
    let cmd : Command :=
      { program := RUSTFMT
        args := ["--unstable-features", file, "--file-lines", json]
        stdin := .null
        stdout := .null
        stderr := .piped }
    match world cmd with
    | .error e => (.ioErr e, some cmd)
    | .ok child =>
      match await_child RUSTFMT child with
      | .error e => (.ioErr e, some cmd)
      | .ok _ => (.ok, some cmd)

/-- The descriptor `format` pushes for a destination hunk `dst`:
`FormatDescriptor { file: &dst.file, range: dst.line..=dst.line + dst.count }`. -/
def mkDescriptor (dst : File) : FormatDescriptor :=
  { file := dst.file, range := (dst.line, dst.line + dst.count) }

/-- One flush event: `format_now` was invoked for `file` with `descrs`;
`cmd` records the command that invocation spawned (`none` only if
serialization panicked before spawning). -/
structure FlushEvent where
  file : String
  descrs : List FormatDescriptor
  cmd : Option Command
  deriving DecidableEq, Repr

/-- The `for (_, dst) in diffs` loop of `format`, with the two pieces of
loop state (`last_dst` and the accumulated `descr` vector) made explicit.
On a change of destination file the accumulated group is flushed, the
error (or panic) of a flush aborts the loop, and the final flush after
the loop is the `[]` case. Returns the outcome together with the list of
flush events that happened, in order. -/
def formatLoop (world : World) :
    List (File × File) → Option String → List FormatDescriptor →
    StepResult × List FlushEvent
  | [], last_dst, descr =>
    match last_dst with
    | some prev_dst =>
      let fr := format_now world prev_dst descr
      (fr.1, [⟨prev_dst, descr, fr.2⟩])
    | none => (.ok, [])
  | (_, dst) :: rest, last_dst, descr =>
    match last_dst with
    | some prev_dst =>
      if prev_dst ≠ dst.file then
        let fr := format_now world prev_dst descr
        match fr.1 with
        | .ok =>
          let next := formatLoop world rest (some dst.file) [mkDescriptor dst]
          (next.1, ⟨prev_dst, descr, fr.2⟩ :: next.2)
        | r => (r, [⟨prev_dst, descr, fr.2⟩])
      else
        formatLoop world rest (some prev_dst) (descr ++ [mkDescriptor dst])
    | none => formatLoop world rest (some dst.file) (descr ++ [mkDescriptor dst])

/-- Embedding of `pub fn format(diffs: &[(File, File)])`: run the batching
loop with no current destination file and an empty descriptor vector. -/
def format (world : World) (diffs : List (File × File)) : StepResult × List FlushEvent :=
  formatLoop world diffs none []

/-- The observable content of a flush event: the file it was flushed
under and the descriptor group, which is what the specification's flush
events consist of. -/
def FlushEvent.proj (ev : FlushEvent) : String × List FormatDescriptor :=
  (ev.file, ev.descrs)

/-- The maximal contiguous runs of equal destination-file values of a
hunk list, in input order, each tagged with its file. This definition
follows the specification's words ("runs are determined by strict
adjacency, not by set-grouping across non-adjacent occurrences of the
same file") and is the yardstick the batching loop is compared with. -/
def runsOf : List File → List (String × List File)
  | [] => []
  | h :: t =>
    (h.file, h :: t.takeWhile (fun x => x.file == h.file)) ::
      runsOf (t.dropWhile (fun x => x.file == h.file))
termination_by l => l.length
decreasing_by
  simp only [List.length_cons]
  exact Nat.lt_succ_of_le (List.dropWhile_suffix _).length_le

/-- The flush events the specification prescribes for a given list of
destination hunks: one per maximal contiguous run, in order, carrying the
descriptors of the run's hunks in order. -/
def specFlushes (dsts : List File) : List (String × List FormatDescriptor) :=
  (runsOf dsts).map (fun r => (r.1, r.2.map mkDescriptor))

/-- The flush events the batching loop performs from an intermediate
state (current file `f`, accumulated group `descr`) onwards, assuming
every invocation succeeds: flush on every change of destination file and
once more when the input ends. -/
def flushesFrom (f : String) (descr : List FormatDescriptor) :
    List File → List (String × List FormatDescriptor)
  | [] => [(f, descr)]
  | h :: t =>
    if f ≠ h.file then (f, descr) :: flushesFrom h.file [mkDescriptor h] t
    else flushesFrom f (descr ++ [mkDescriptor h]) t

/-- A child that exited successfully (status 0, nothing on stderr). -/
def okChild : Child :=
  { waitResult := .ok 0, stdout := none, stderr := some ⟨.ok ""⟩ }

/-- A world in which every spawn succeeds and every child exits with
status 0. -/
def okWorld : World := fun _ => .ok okChild

/-- A world in which every invocation of the external tool succeeds:
spawning works and the child exits with status 0. -/
def worldOk (world : World) : Prop :=
  ∀ cmd, ∃ child, world cmd = .ok child ∧ child.waitResult = .ok 0

/-- One JSON object field, `"name":value`, with the name JSON-encoded. -/
def jsonField (name : String) (value : String) : String :=
  encodeJsonString name ++ ":" ++ value

/-- A two-element JSON array `[a,b]`, the shape `serialize_range` gives an
inclusive range. -/
def jsonPair (a : String) (b : String) : String :=
  "[" ++ (a ++ "," ++ b) ++ "]"

/-- The JSON object the specification prescribes for one hunk's
descriptor: `\x7b"file": "<path>", "range": [<start>, <end>]\x7d` (compactly
printed). -/
def descrObjString (d : FormatDescriptor) : String :=
  "\x7b" ++ (jsonField "file" (encodeJsonString d.file) ++ "," ++
    jsonField "range" (jsonPair (Nat.repr d.range.1) (Nat.repr d.range.2))) ++ "\x7d"

/-- The JSON selector the specification prescribes for a group: the array
of the per-hunk objects, in order. -/
def selectorString (descrs : List FormatDescriptor) : String :=
  "[" ++ joinComma (descrs.map descrObjString) ++ "]"

theorem serializeJson_descr (d : FormatDescriptor) :
    serializeJson d.toJson = some (descrObjString d) := rfl

theorem serializeJsonArr_descrs (descrs : List FormatDescriptor) :
    serializeJsonArr (descrs.map FormatDescriptor.toJson) =
      some (descrs.map descrObjString) := by
  induction descrs with
  | nil => rfl
  | cons d rest ih =>
    simp only [List.map_cons, serializeJsonArr, serializeJson_descr, ih]

/-- Serializing a descriptor list always succeeds and produces exactly the
selector string the specification prescribes. -/
theorem to_json_eq (descrs : List FormatDescriptor) :
    to_json descrs = some (selectorString descrs) := by
  simp only [to_json, serializeJson, serializeJsonArr_descrs, selectorString]

/-- The command `format_now` spawns for a file and a descriptor group. -/
def flushCommand (file : String) (descrs : List FormatDescriptor) : Command :=
  { program := RUSTFMT
    args := ["--unstable-features", file, "--file-lines", selectorString descrs]
    stdin := .null
    stdout := .null
    stderr := .piped }

theorem format_now_eq (world : World) (file : String) (descrs : List FormatDescriptor) :
    format_now world file descrs =
      match world (flushCommand file descrs) with
      | .error e => (.ioErr e, some (flushCommand file descrs))
      | .ok child =>
        match await_child RUSTFMT child with
        | .error e => (.ioErr e, some (flushCommand file descrs))
        | .ok _ => (.ok, some (flushCommand file descrs)) := by
  simp only [format_now, to_json_eq, flushCommand]

theorem format_now_snd (world : World) (file : String) (descrs : List FormatDescriptor) :
    (format_now world file descrs).2 = some (flushCommand file descrs) := by
  rw [format_now_eq]
  split
  · rfl
  · split <;> rfl

theorem format_now_ok (world : World) (h : worldOk world) (file : String)
    (descrs : List FormatDescriptor) : (format_now world file descrs).1 = .ok := by
  obtain ⟨child, hcmd, hwait⟩ := h (flushCommand file descrs)
  rw [format_now_eq, hcmd]
  simp [await_child, hwait]

theorem formatLoop_nil_none (world : World) (descr : List FormatDescriptor) :
    formatLoop world [] none descr = (.ok, []) := rfl

theorem formatLoop_nil_some (world : World) (f : String) (descr : List FormatDescriptor) :
    formatLoop world [] (some f) descr =
      ((format_now world f descr).1, [⟨f, descr, (format_now world f descr).2⟩]) := rfl

theorem formatLoop_cons_none (world : World) (s dst : File) (rest : List (File × File))
    (descr : List FormatDescriptor) :
    formatLoop world ((s, dst) :: rest) none descr =
      formatLoop world rest (some dst.file) (descr ++ [mkDescriptor dst]) := rfl

theorem formatLoop_cons_stay (world : World) (s dst : File) (rest : List (File × File))
    (f : String) (descr : List FormatDescriptor) (h : f = dst.file) :
    formatLoop world ((s, dst) :: rest) (some f) descr =
      formatLoop world rest (some f) (descr ++ [mkDescriptor dst]) := by
  simp only [formatLoop]
  rw [if_neg (by simp [h])]

theorem formatLoop_cons_change_ok (world : World) (s dst : File) (rest : List (File × File))
    (f : String) (descr : List FormatDescriptor) (h : f ≠ dst.file)
    (hok : (format_now world f descr).1 = .ok) :
    formatLoop world ((s, dst) :: rest) (some f) descr =
      ((formatLoop world rest (some dst.file) [mkDescriptor dst]).1,
        ⟨f, descr, (format_now world f descr).2⟩ ::
          (formatLoop world rest (some dst.file) [mkDescriptor dst]).2) := by
  simp only [formatLoop]
  rw [if_pos h, hok]

theorem formatLoop_cons_change_fail (world : World) (s dst : File) (rest : List (File × File))
    (f : String) (descr : List FormatDescriptor) (h : f ≠ dst.file)
    (hfail : (format_now world f descr).1 ≠ .ok) :
    formatLoop world ((s, dst) :: rest) (some f) descr =
      ((format_now world f descr).1, [⟨f, descr, (format_now world f descr).2⟩]) := by
  simp only [formatLoop]
  rw [if_pos h]

/-- Under a world in which every invocation succeeds, the batching loop
started in an intermediate state succeeds and performs exactly the
flushes `flushesFrom` describes. -/
theorem formatLoop_of_worldOk (world : World) (h : worldOk world)
    (diffs : List (File × File)) :
    ∀ (f : String) (descr : List FormatDescriptor),
      (formatLoop world diffs (some f) descr).1 = .ok ∧
        ((formatLoop world diffs (some f) descr).2).map FlushEvent.proj =
          flushesFrom f descr (diffs.map Prod.snd) := by
  induction diffs with
  | nil =>
    intro f descr
    rw [formatLoop_nil_some]
    simp [flushesFrom, FlushEvent.proj, format_now_ok world h]
  | cons p rest ih =>
    intro f descr
    obtain ⟨s, dst⟩ := p
    by_cases hf : f = dst.file
    · rw [formatLoop_cons_stay world s dst rest f descr hf]
      obtain ⟨ih1, ih2⟩ := ih f (descr ++ [mkDescriptor dst])
      refine ⟨ih1, ?_⟩
      rw [ih2]
      show _ = flushesFrom f descr (dst :: rest.map Prod.snd)
      simp only [flushesFrom]
      rw [if_neg (by simp [hf])]
    · obtain ⟨ih1, ih2⟩ := ih dst.file [mkDescriptor dst]
      rw [formatLoop_cons_change_ok world s dst rest f descr hf
        (format_now_ok world h f descr)]
      refine ⟨ih1, ?_⟩
      show FlushEvent.proj _ :: _ = flushesFrom f descr (dst :: rest.map Prod.snd)
      simp only [flushesFrom]
      rw [if_pos hf, ih2]
      rfl

/-- Structure of a batching pass from an intermediate state under an
arbitrary world: the loop performs some flushes, all but the last of
which succeeded; its result is the result of the last flush performed;
and the flushes performed are an initial segment of the flushes that a
fully successful pass would perform. -/
theorem formatLoop_structure (world : World) (diffs : List (File × File)) :
    ∀ (f : String) (descr : List FormatDescriptor),
      ∃ evs lastEv,
        formatLoop world diffs (some f) descr =
          ((format_now world lastEv.file lastEv.descrs).1, evs ++ [lastEv]) ∧
        (∀ ev ∈ evs, (format_now world ev.file ev.descrs).1 = .ok) ∧
        ∃ n, ((evs ++ [lastEv]).map FlushEvent.proj) =
          (flushesFrom f descr (diffs.map Prod.snd)).take n := by
  induction diffs with
  | nil =>
    intro f descr
    refine ⟨[], ⟨f, descr, (format_now world f descr).2⟩,
      formatLoop_nil_some world f descr, by simp, 1, ?_⟩
    simp [flushesFrom, FlushEvent.proj]
  | cons p rest ih =>
    intro f descr
    obtain ⟨s, dst⟩ := p
    by_cases hf : f = dst.file
    · obtain ⟨evs, lastEv, heq, hok, n, hn⟩ := ih f (descr ++ [mkDescriptor dst])
      refine ⟨evs, lastEv, ?_, hok, n, ?_⟩
      · rw [formatLoop_cons_stay world s dst rest f descr hf, heq]
      · rw [hn]
        show _ = (flushesFrom f descr (dst :: rest.map Prod.snd)).take n
        simp only [flushesFrom]
        rw [if_neg (by simp [hf])]
    · by_cases hok : (format_now world f descr).1 = .ok
      · obtain ⟨evs, lastEv, heq, hoks, n, hn⟩ := ih dst.file [mkDescriptor dst]
        refine ⟨⟨f, descr, (format_now world f descr).2⟩ :: evs, lastEv, ?_, ?_, n + 1, ?_⟩
        · rw [formatLoop_cons_change_ok world s dst rest f descr hf hok, heq]
          rfl
        · intro ev hev
          rcases List.mem_cons.mp hev with h1 | h2
          · rw [h1]; exact hok
          · exact hoks ev h2
        · show FlushEvent.proj _ :: _ = (flushesFrom f descr (dst :: rest.map Prod.snd)).take (n + 1)
          simp only [flushesFrom]
          rw [if_pos hf, List.take_succ_cons, ← hn]
          rfl
      · refine ⟨[], ⟨f, descr, (format_now world f descr).2⟩, ?_, by simp, 1, ?_⟩
        · rw [formatLoop_cons_change_fail world s dst rest f descr hf hok]
          rfl
        · show [FlushEvent.proj _] = (flushesFrom f descr (dst :: rest.map Prod.snd)).take 1
          simp only [flushesFrom]
          rw [if_pos hf, List.take_succ_cons, List.take_zero]
          rfl

/-- Invariant of the batching loop: if the pending group is non-empty and
all its descriptors carry the current file, then every flush the loop
performs passes a non-empty group whose descriptors all carry the file
the group is flushed under. -/
theorem formatLoop_groups (world : World) (diffs : List (File × File)) :
    ∀ (f : String) (descr : List FormatDescriptor),
      descr ≠ [] → (∀ d ∈ descr, d.file = f) →
      ∀ ev ∈ (formatLoop world diffs (some f) descr).2,
        ev.descrs ≠ [] ∧ ∀ d ∈ ev.descrs, d.file = ev.file := by
  induction diffs with
  | nil =>
    intro f descr hne hfiles ev hev
    rw [formatLoop_nil_some] at hev
    rcases List.mem_singleton.mp hev with h
    rw [h]
    exact ⟨hne, hfiles⟩
  | cons p rest ih =>
    intro f descr hne hfiles ev hev
    obtain ⟨s, dst⟩ := p
    by_cases hf : f = dst.file
    · rw [formatLoop_cons_stay world s dst rest f descr hf] at hev
      refine ih f (descr ++ [mkDescriptor dst]) (by simp) ?_ ev hev
      intro d hd
      rcases List.mem_append.mp hd with h1 | h2
      · exact hfiles d h1
      · rcases List.mem_singleton.mp h2 with h
        rw [h, mkDescriptor, hf]
    · by_cases hok : (format_now world f descr).1 = .ok
      · rw [formatLoop_cons_change_ok world s dst rest f descr hf hok] at hev
        rcases List.mem_cons.mp hev with h1 | h2
        · rw [h1]
          exact ⟨hne, hfiles⟩
        · refine ih dst.file [mkDescriptor dst] (by simp) ?_ ev h2
          intro d hd
          rcases List.mem_singleton.mp hd with h
          rw [h, mkDescriptor]
      · rw [formatLoop_cons_change_fail world s dst rest f descr hf hok] at hev
        rcases List.mem_singleton.mp hev with h
        rw [h]
        exact ⟨hne, hfiles⟩

/-- Invariant of the batching loop: every descriptor of every flushed
group originates from some destination hunk, either one already folded
into the pending group or one of the remaining input, as
`mkDescriptor` of that hunk. -/
theorem formatLoop_descr_origin (world : World) (U : List File)
    (diffs : List (File × File)) :
    ∀ (f : String) (descr : List FormatDescriptor),
      (∀ p ∈ diffs, p.2 ∈ U) →
      (∀ d ∈ descr, ∃ dst ∈ U, d = mkDescriptor dst) →
      ∀ ev ∈ (formatLoop world diffs (some f) descr).2,
        ∀ d ∈ ev.descrs, ∃ dst ∈ U, d = mkDescriptor dst := by
  induction diffs with
  | nil =>
    intro f descr _ hdescr ev hev
    rw [formatLoop_nil_some] at hev
    rcases List.mem_singleton.mp hev with h
    rw [h]
    exact hdescr
  | cons p rest ih =>
    intro f descr hU hdescr ev hev
    obtain ⟨s, dst⟩ := p
    have hdstU : dst ∈ U := hU (s, dst) (List.mem_cons_self _ _)
    have hUrest : ∀ p ∈ rest, p.2 ∈ U := fun p hp => hU p (List.mem_cons_of_mem _ hp)
    have hext : ∀ d ∈ descr ++ [mkDescriptor dst], ∃ dst' ∈ U, d = mkDescriptor dst' := by
      intro d hd
      rcases List.mem_append.mp hd with h1 | h2
      · exact hdescr d h1
      · rcases List.mem_singleton.mp h2 with h
        exact ⟨dst, hdstU, h⟩
    by_cases hf : f = dst.file
    · rw [formatLoop_cons_stay world s dst rest f descr hf] at hev
      exact ih f (descr ++ [mkDescriptor dst]) hUrest hext ev hev
    · by_cases hok : (format_now world f descr).1 = .ok
      · rw [formatLoop_cons_change_ok world s dst rest f descr hf hok] at hev
        rcases List.mem_cons.mp hev with h1 | h2
        · rw [h1]
          exact hdescr
        · refine ih dst.file [mkDescriptor dst] hUrest ?_ ev h2
          intro d hd
          rcases List.mem_singleton.mp hd with h
          exact ⟨dst, hdstU, h⟩
      · rw [formatLoop_cons_change_fail world s dst rest f descr hf hok] at hev
        rcases List.mem_singleton.mp hev with h
        rw [h]
        exact hdescr

/-- The batching loop reads nothing but the destination side of each hunk
pair: two inputs with the same destination hunks drive it identically. -/
theorem formatLoop_dst_only (world : World) :
    ∀ (l1 l2 : List (File × File)), l1.map Prod.snd = l2.map Prod.snd →
      ∀ (last_dst : Option String) (descr : List FormatDescriptor),
        formatLoop world l1 last_dst descr = formatLoop world l2 last_dst descr := by
  intro l1
  induction l1 with
  | nil =>
    intro l2 hmap last_dst descr
    rw [List.map_nil] at hmap
    rw [(List.map_eq_nil_iff.mp hmap.symm : l2 = [])]
  | cons p t1 ih =>
    intro l2 hmap last_dst descr
    obtain ⟨s1, d1⟩ := p
    cases l2 with
    | nil => simp at hmap
    | cons q t2 =>
      obtain ⟨s2, d2⟩ := q
      simp only [List.map_cons, List.cons.injEq] at hmap
      obtain ⟨hd, ht⟩ := hmap
      cases (show d1 = d2 from hd)
      cases last_dst with
      | none =>
        rw [formatLoop_cons_none, formatLoop_cons_none]
        exact ih t2 ht _ _
      | some f =>
        by_cases hf : f = d1.file
        · rw [formatLoop_cons_stay world s1 d1 t1 f descr hf,
            formatLoop_cons_stay world s2 d1 t2 f descr hf]
          exact ih t2 ht _ _
        · by_cases hok : (format_now world f descr).1 = .ok
          · rw [formatLoop_cons_change_ok world s1 d1 t1 f descr hf hok,
              formatLoop_cons_change_ok world s2 d1 t2 f descr hf hok,
              ih t2 ht (some d1.file) [mkDescriptor d1]]
          · rw [formatLoop_cons_change_fail world s1 d1 t1 f descr hf hok,
              formatLoop_cons_change_fail world s2 d1 t2 f descr hf hok]

/-- The flushes performed from an intermediate state are the pending group
extended by the leading run of its file, followed by the specification's
flushes for the remaining hunks. -/
theorem flushesFrom_eq (dsts : List File) :
    ∀ (f : String) (descr : List FormatDescriptor),
      flushesFrom f descr dsts =
        (f, descr ++ (dsts.takeWhile (fun x => x.file == f)).map mkDescriptor) ::
          specFlushes (dsts.dropWhile (fun x => x.file == f)) := by
  induction dsts with
  | nil =>
    intro f descr
    simp [flushesFrom, specFlushes, runsOf]
  | cons h t ih =>
    intro f descr
    by_cases hf : f = h.file
    · have hb : (h.file == f) = true := by simp [hf]
      simp only [flushesFrom]
      rw [if_neg (by simp [hf])]
      rw [ih f (descr ++ [mkDescriptor h])]
      simp [List.takeWhile_cons, List.dropWhile_cons, hb, List.append_assoc]
    · have hb : (h.file == f) = false := by
        rw [beq_eq_false_iff_ne]
        exact fun hh => hf hh.symm
      simp only [flushesFrom]
      rw [if_pos hf, ih h.file [mkDescriptor h]]
      simp [List.takeWhile_cons, List.dropWhile_cons, hb, specFlushes, runsOf]

/-- Started on the first hunk of the input, the successful-pass flushes
are exactly the specification's flushes for the whole input. -/
theorem flushesFrom_initial (dst : File) (rl : List File) :
    flushesFrom dst.file [mkDescriptor dst] rl = specFlushes (dst :: rl) := by
  rw [flushesFrom_eq]
  simp [specFlushes, runsOf]

/-- Every flush event records exactly the command its `format_now`
invocation spawned. -/
theorem formatLoop_cmds (world : World) (diffs : List (File × File)) :
    ∀ (f : String) (descr : List FormatDescriptor),
      ∀ ev ∈ (formatLoop world diffs (some f) descr).2,
        ev.cmd = (format_now world ev.file ev.descrs).2 := by
  induction diffs with
  | nil =>
    intro f descr ev hev
    rw [formatLoop_nil_some] at hev
    rcases List.mem_singleton.mp hev with h
    rw [h]
  | cons p rest ih =>
    intro f descr ev hev
    obtain ⟨s, dst⟩ := p
    by_cases hf : f = dst.file
    · rw [formatLoop_cons_stay world s dst rest f descr hf] at hev
      exact ih f (descr ++ [mkDescriptor dst]) ev hev
    · by_cases hok : (format_now world f descr).1 = .ok
      · rw [formatLoop_cons_change_ok world s dst rest f descr hf hok] at hev
        rcases List.mem_cons.mp hev with h1 | h2
        · rw [h1]
        · exact ih dst.file [mkDescriptor dst] ev h2
      · rw [formatLoop_cons_change_fail world s dst rest f descr hf hok] at hev
        rcases List.mem_singleton.mp hev with h
        rw [h]

/-- A single invocation never produces the panic outcome, because the
serialization it unwraps always succeeds. -/
theorem format_now_ne_panic (world : World) (file : String)
    (descrs : List FormatDescriptor) : (format_now world file descrs).1 ≠ .panic := by
  rw [format_now_eq]
  split
  · simp
  · split <;> simp

/-- The batching loop never produces the panic outcome. -/
theorem formatLoop_ne_panic (world : World) (diffs : List (File × File)) :
    ∀ (last_dst : Option String) (descr : List FormatDescriptor),
      (formatLoop world diffs last_dst descr).1 ≠ .panic := by
  induction diffs with
  | nil =>
    intro last_dst descr
    cases last_dst with
    | none => simp [formatLoop_nil_none]
    | some f =>
      rw [formatLoop_nil_some]
      exact format_now_ne_panic world f descr
  | cons p rest ih =>
    intro last_dst descr
    obtain ⟨s, dst⟩ := p
    cases last_dst with
    | none =>
      rw [formatLoop_cons_none]
      exact ih _ _
    | some f =>
      by_cases hf : f = dst.file
      · rw [formatLoop_cons_stay world s dst rest f descr hf]
        exact ih _ _
      · by_cases hok : (format_now world f descr).1 = .ok
        · rw [formatLoop_cons_change_ok world s dst rest f descr hf hok]
          exact ih _ _
        · rw [formatLoop_cons_change_fail world s dst rest f descr hf hok]
          exact format_now_ne_panic world f descr

/-- A source-side hunk used in the concrete examples (its content is
irrelevant to the core, which only reads destination hunks). -/
def srcHunk : File := { file := "old.rs", line := 1, count := 1 }

/-- Destination hunks of the concrete examples: two on `a.rs`, one on
`b.rs`, as in the specification's two-file example (lines 1-5, 20-22
and 1-1 in inclusive-range terms). -/
def hunkA1 : File := { file := "a.rs", line := 1, count := 4 }

/-- Second destination hunk on `a.rs` (lines 20-22). -/
def hunkA2 : File := { file := "a.rs", line := 20, count := 2 }

/-- Destination hunk on `b.rs` (lines 1-1). -/
def hunkB1 : File := { file := "b.rs", line := 1, count := 0 }

/-- The concrete example input: two consecutive hunks on `a.rs` followed
by one on `b.rs`. -/
def demoDiffs : List (File × File) :=
  [(srcHunk, hunkA1), (srcHunk, hunkA2), (srcHunk, hunkB1)]

/-- A world in which every spawn fails with the same system error. -/
def failWorld : World := fun _ => .error (.sys 7)

/-- A child that exited with status 1 after writing
`error: syntax problem` and a newline as the first line of its
standard-error stream. -/
def diagChild : Child :=
  { waitResult := .ok 1, stdout := none,
    stderr := some ⟨.ok ("error: syntax problem" ++ "\n")⟩ }

/-- A world whose children all exit with status 1 and the diagnostic
`error: syntax problem`. -/
def diagWorld : World := fun _ => .ok diagChild

/-- A child that exited with status 1 with a captured stderr that is
already at end-of-file: reading a line succeeds but yields no content. -/
def emptyStderrChild : Child :=
  { waitResult := .ok 1, stdout := none, stderr := some ⟨.ok ""⟩ }

/-- A child that exited with status 1 whose captured stderr fails to
read. -/
def readFailChild : Child :=
  { waitResult := .ok 1, stdout := none, stderr := some ⟨.error (.sys 5)⟩ }

/-- C7: for the empty input sequence, `format` succeeds, produces zero
flush events, and (the trace of spawned commands being a projection of
the flush events) launches zero external processes, whatever the world
does. -/
theorem c7_empty_input (world : World) : format world [] = (.ok, []) := rfl

/-- C1: for every non-empty input sequence, under a world in which every
tool invocation succeeds, `format` succeeds and its flush events are
exactly one per maximal contiguous run of equal destination-file values,
in input order, each carrying the descriptors of that run's hunks in
order (the last flush being the final one emitted after the input is
exhausted). -/
theorem c1_flush_per_run (world : World) (diffs : List (File × File))
    (hw : worldOk world) (hne : diffs ≠ []) :
    (format world diffs).1 = .ok ∧
      ((format world diffs).2).map FlushEvent.proj = specFlushes (diffs.map Prod.snd) := by
  cases diffs with
  | nil => exact absurd rfl hne
  | cons p rest =>
    obtain ⟨s, dst⟩ := p
    have hstep : format world ((s, dst) :: rest) =
        formatLoop world rest (some dst.file) [mkDescriptor dst] := rfl
    rw [hstep]
    obtain ⟨h1, h2⟩ := formatLoop_of_worldOk world hw rest dst.file [mkDescriptor dst]
    refine ⟨h1, ?_⟩
    rw [h2, flushesFrom_initial]
    rfl

/-- C1 witness: the two-file example input, under the all-success world. -/
theorem c1_flush_per_run_witness :
    (format okWorld demoDiffs).1 = .ok ∧
      ((format okWorld demoDiffs).2).map FlushEvent.proj =
        specFlushes (demoDiffs.map Prod.snd) :=
  c1_flush_per_run okWorld demoDiffs (fun _ => ⟨okChild, rfl, rfl⟩) (by decide)

/-- C9: the behaviour of `format` depends only on the destination-side
hunks: two inputs whose destination hunks agree produce identical
results and identical flush events (hence identical spawned commands and
serialized selectors), whatever the source-side hunks are. -/
theorem c9_destination_only (world : World) (diffs1 diffs2 : List (File × File))
    (h : diffs1.map Prod.snd = diffs2.map Prod.snd) :
    format world diffs1 = format world diffs2 :=
  formatLoop_dst_only world diffs1 diffs2 h none []

/-- C9 witness: the example input versus the same destination hunks paired
with entirely different source hunks. -/
theorem c9_destination_only_witness :
    format okWorld demoDiffs =
      format okWorld
        [({ file := "other.rs", line := 99, count := 9 }, hunkA1),
         ({ file := "third.rs", line := 5, count := 0 }, hunkA2),
         (hunkB1, hunkB1)] :=
  c9_destination_only okWorld _ _ (by decide)

/-- C10: serializing any descriptor list inside `format_now` always
succeeds (the `unwrap` on the serialization result never fires), and
consequently `format` never produces the panic outcome, for any input
sequence and any world. -/
theorem c10_never_panics (world : World) (diffs : List (File × File)) :
    (∀ descrs : List FormatDescriptor, (to_json descrs).isSome) ∧
      (format world diffs).1 ≠ .panic :=
  ⟨fun descrs => by rw [to_json_eq]; rfl,
    formatLoop_ne_panic world diffs none []⟩

/-- The first flush event of the example run: the `a.rs` group with its
two descriptors and the command spawned for it. -/
def demoEventA : FlushEvent :=
  ⟨"a.rs", [{ file := "a.rs", range := (1, 5) }, { file := "a.rs", range := (20, 22) }],
    some (flushCommand "a.rs"
      [{ file := "a.rs", range := (1, 5) }, { file := "a.rs", range := (20, 22) }])⟩

/-- C2: for every flush `format` performs, the spawned command is exactly
`rustfmt --unstable-features <file-path> --file-lines <json-selector>`
with stdin null (closed), stdout null (discarded) and stderr piped, the
selector being the JSON array with one `\x7b"file", "range"\x7d` object per
hunk of the group, in order. -/
theorem c2_invocation_shape (world : World) (diffs : List (File × File)) :
    ∀ ev ∈ (format world diffs).2,
      ev.cmd = some
        { program := RUSTFMT
          args := ["--unstable-features", ev.file, "--file-lines", selectorString ev.descrs]
          stdin := .null
          stdout := .null
          stderr := .piped } := by
  intro ev hev
  cases diffs with
  | nil => exact absurd hev (List.not_mem_nil ev)
  | cons p rest =>
    obtain ⟨s, dst⟩ := p
    have hstep : format world ((s, dst) :: rest) =
        formatLoop world rest (some dst.file) [mkDescriptor dst] := rfl
    rw [hstep] at hev
    rw [formatLoop_cmds world rest dst.file [mkDescriptor dst] ev hev, format_now_snd]
    rfl

/-- C2 witness: the command recorded for the `a.rs` flush of the example
run. -/
theorem c2_invocation_shape_witness :
    demoEventA.cmd = some
      { program := RUSTFMT
        args := ["--unstable-features", demoEventA.file, "--file-lines",
          selectorString demoEventA.descrs]
        stdin := .null
        stdout := .null
        stderr := .piped } :=
  c2_invocation_shape okWorld demoDiffs demoEventA (by decide)

/-- C3: the descriptor built for a destination hunk has
`range.start = line` and `range.end = line + count` (hence the difference
is `count`); every descriptor of every flush arises this way from some
input hunk; and the single hunk with line 10 and count 3 produces exactly
the one descriptor with range `(10, 13)`. -/
theorem c3_descriptor_ranges (world : World) (diffs : List (File × File)) :
    (∀ dst : File, (mkDescriptor dst).range.1 = dst.line ∧
        (mkDescriptor dst).range.2 = dst.line + dst.count ∧
        (mkDescriptor dst).range.2 - (mkDescriptor dst).range.1 = dst.count) ∧
    (∀ ev ∈ (format world diffs).2, ∀ d ∈ ev.descrs,
        ∃ dst, (∃ s, (s, dst) ∈ diffs) ∧ d = mkDescriptor dst) ∧
    ((format okWorld [(srcHunk, { file := "t.rs", line := 10, count := 3 })]).2).map
        FlushEvent.proj = [("t.rs", [{ file := "t.rs", range := (10, 13) }])] := by
  refine ⟨fun dst => ⟨rfl, rfl, Nat.add_sub_cancel_left dst.line dst.count⟩, ?_, by decide⟩
  intro ev hev d hd
  cases diffs with
  | nil => exact absurd hev (List.not_mem_nil ev)
  | cons p rest =>
    obtain ⟨s, dst⟩ := p
    have hstep : format world ((s, dst) :: rest) =
        formatLoop world rest (some dst.file) [mkDescriptor dst] := rfl
    rw [hstep] at hev
    have horig := formatLoop_descr_origin world (((s, dst) :: rest).map Prod.snd) rest
      dst.file [mkDescriptor dst]
      (fun p hp => List.mem_map_of_mem Prod.snd (List.mem_cons_of_mem _ hp))
      (fun d' hd' => ⟨dst, List.mem_map_of_mem Prod.snd (List.mem_cons_self _ _),
        List.mem_singleton.mp hd'⟩)
      ev hev d hd
    obtain ⟨dst', hdst', hded⟩ := horig
    obtain ⟨q, hq, hq2⟩ := List.mem_map.mp hdst'
    exact ⟨dst', ⟨q.1, by rwa [show (q.1, dst') = q from by rw [← hq2]]⟩, hded⟩

/-- C3 witness: the first descriptor of the example run's `a.rs` group
arises from an input hunk. -/
theorem c3_descriptor_ranges_witness :
    ∃ dst, (∃ s, (s, dst) ∈ demoDiffs) ∧
      ({ file := "a.rs", range := (1, 5) } : FormatDescriptor) = mkDescriptor dst :=
  (c3_descriptor_ranges okWorld demoDiffs).2.1 demoEventA (by decide)
    { file := "a.rs", range := (1, 5) } (by decide)

/-- C8: every flush passes a non-empty descriptor group, and every
descriptor of a flushed group carries the same file value as the file the
group is flushed under. -/
theorem c8_flushed_groups (world : World) (diffs : List (File × File)) :
    ∀ ev ∈ (format world diffs).2,
      ev.descrs ≠ [] ∧ ∀ d ∈ ev.descrs, d.file = ev.file := by
  intro ev hev
  cases diffs with
  | nil => exact absurd hev (List.not_mem_nil ev)
  | cons p rest =>
    obtain ⟨s, dst⟩ := p
    have hstep : format world ((s, dst) :: rest) =
        formatLoop world rest (some dst.file) [mkDescriptor dst] := rfl
    rw [hstep] at hev
    refine formatLoop_groups world rest dst.file [mkDescriptor dst] (by simp) ?_ ev hev
    intro d hd
    rw [List.mem_singleton.mp hd]
    rfl

/-- C8 witness: the `a.rs` flush of the example run. -/
theorem c8_flushed_groups_witness :
    demoEventA.descrs ≠ [] ∧ ∀ d ∈ demoEventA.descrs, d.file = demoEventA.file :=
  c8_flushed_groups okWorld demoDiffs demoEventA (by decide)

/-- C6: a launch error is propagated through an invocation unchanged, and
whenever `format` fails, the flushes it performed are an initial segment
of the specification's flush sequence whose last element is the failing
invocation (the propagated error being exactly that invocation's error):
no flush for any later file group is attempted and no descriptors for
subsequent groups are serialized. -/
theorem c6_error_aborts (world : World) (diffs : List (File × File)) :
    (∀ (file : String) (descrs : List FormatDescriptor) (e : IOError),
        world (flushCommand file descrs) = .error e →
        (format_now world file descrs).1 = .ioErr e) ∧
    ∀ e, (format world diffs).1 = .ioErr e →
      ∃ evs lastEv, (format world diffs).2 = evs ++ [lastEv] ∧
        (∀ ev ∈ evs, (format_now world ev.file ev.descrs).1 = .ok) ∧
        (format_now world lastEv.file lastEv.descrs).1 = .ioErr e ∧
        ∃ n, ((evs ++ [lastEv]).map FlushEvent.proj) =
          (specFlushes (diffs.map Prod.snd)).take n := by
  constructor
  · intro file descrs e he
    rw [format_now_eq, he]
  · intro e herr
    cases diffs with
    | nil => exact absurd herr (fun h => StepResult.noConfusion h)
    | cons p rest =>
      obtain ⟨s, dst⟩ := p
      have hstep : format world ((s, dst) :: rest) =
          formatLoop world rest (some dst.file) [mkDescriptor dst] := rfl
      rw [hstep] at herr ⊢
      obtain ⟨evs, lastEv, heq, hoks, n, hn⟩ :=
        formatLoop_structure world rest dst.file [mkDescriptor dst]
      rw [heq] at herr ⊢
      refine ⟨evs, lastEv, rfl, hoks, herr, n, ?_⟩
      rw [show ((evs ++ [lastEv]).map FlushEvent.proj : List (String × List FormatDescriptor))
          = (flushesFrom dst.file [mkDescriptor dst] (rest.map Prod.snd)).take n from hn,
        flushesFrom_initial]
      rfl

/-- C6 witness: under a world in which spawning always fails, the example
run stops at its first flush and propagates the launch error unchanged. -/
theorem c6_error_aborts_witness :
    (format_now failWorld "a.rs" []).1 = .ioErr (.sys 7) ∧
    ∃ evs lastEv, (format failWorld demoDiffs).2 = evs ++ [lastEv] ∧
      (∀ ev ∈ evs, (format_now failWorld ev.file ev.descrs).1 = .ok) ∧
      (format_now failWorld lastEv.file lastEv.descrs).1 = .ioErr (.sys 7) ∧
      ∃ n, ((evs ++ [lastEv]).map FlushEvent.proj) =
        (specFlushes (demoDiffs.map Prod.snd)).take n :=
  ⟨(c6_error_aborts failWorld demoDiffs).1 "a.rs" [] (.sys 7) rfl,
    (c6_error_aborts failWorld demoDiffs).2 (.sys 7) (by decide)⟩

/-- C4 counterexample: with the tool exiting with status 1 and writing
`error: syntax problem` to stderr, `format` fails with a message that
quotes the tool name in BACKTICKS, so it is neither of the two messages
(bare or suffixed) that the claim's apostrophe-quoted pattern
`process 'rustfmt' failed` allows. -/
theorem c4_claim_counterexample :
    (format diagWorld [(srcHunk, hunkA1)]).1 =
      .ioErr (.other "process `rustfmt` failed: error: syntax problem") ∧
    "process `rustfmt` failed: error: syntax problem" ≠
      "process 'rustfmt' failed: error: syntax problem" ∧
    "process `rustfmt` failed: error: syntax problem" ≠ "process 'rustfmt' failed" :=
  ⟨by decide, by decide, by decide⟩

/-- C4 (amended): on a non-zero exit status the error is `Error::other`
with message ``process `rustfmt` failed`` (tool name quoted in backticks),
suffixed with `: <trimmed first stderr line>` exactly when the stderr
handle exists and reading a line from it succeeds; in particular, with
status 1 and `error: syntax problem` plus newline on stderr, the message
is ``process `rustfmt` failed: error: syntax problem``, which contains the
tool name and the literal diagnostic text. -/
theorem c4_amended_message (child : Child) (status : Nat)
    (hw : child.waitResult = .ok status) (hs : status ≠ 0) :
    ∃ m, await_child RUSTFMT child = .error (.other m) ∧
      (m = "process `rustfmt` failed" ∨
        ∃ line, (∃ r, child.stderr = some r ∧ r.readLineResult = .ok line) ∧
          m = "process `rustfmt` failed: " ++ trimChars line) ∧
      (child.stderr = some ⟨.ok ("error: syntax problem" ++ "\n")⟩ →
        m = "process `rustfmt` failed: error: syntax problem" ∧
        (∃ pre post, m = pre ++ RUSTFMT ++ post) ∧
        ∃ pre2 post2, m = pre2 ++ "error: syntax problem" ++ post2) := by
  rcases hst : child.stderr with _ | r
  · refine ⟨"process `rustfmt` failed", ?_, Or.inl rfl, ?_⟩
    · simp [await_child, hw, hst, hs]
      rfl
    · intro hcontra
      exact Option.noConfusion hcontra
  · rcases hr : r.readLineResult with e | line
    · refine ⟨"process `rustfmt` failed", ?_, Or.inl rfl, ?_⟩
      · simp [await_child, hw, hst, hr, hs]
        rfl
      · intro hcontra
        have req := Option.some.inj hcontra
        rw [req] at hr
        exact Except.noConfusion hr
    · refine ⟨"process `rustfmt` failed: " ++ trimChars line, ?_,
        Or.inr ⟨line, ⟨r, rfl, hr⟩, rfl⟩, ?_⟩
      · simp [await_child, hw, hst, hr, hs]
        rfl
      · intro hcontra
        have req := Option.some.inj hcontra
        rw [req] at hr
        have hline : line = "error: syntax problem" ++ "\n" := (Except.ok.inj hr).symm
        subst hline
        exact ⟨by decide, ⟨"process `", "` failed: error: syntax problem", by decide⟩,
          "process `rustfmt` failed: ", "", by decide⟩

/-- C4 witness: the amended statement at the concrete diagnostic child. -/
theorem c4_amended_message_witness :
    ∃ m, await_child RUSTFMT diagChild = .error (.other m) ∧
      (m = "process `rustfmt` failed" ∨
        ∃ line, (∃ r, diagChild.stderr = some r ∧ r.readLineResult = .ok line) ∧
          m = "process `rustfmt` failed: " ++ trimChars line) ∧
      (diagChild.stderr = some ⟨.ok ("error: syntax problem" ++ "\n")⟩ →
        m = "process `rustfmt` failed: error: syntax problem" ∧
        (∃ pre post, m = pre ++ RUSTFMT ++ post) ∧
        ∃ pre2 post2, m = pre2 ++ "error: syntax problem" ++ post2) :=
  c4_amended_message diagChild 1 rfl (by decide)

/-- C5 counterexample: when the read from stderr SUCCEEDS but yields no
content (end-of-file), the code does not return the bare tool-failure
message: it still appends the `: ` suffix, with an empty diagnostic. -/
theorem c5_claim_counterexample :
    await_child RUSTFMT emptyStderrChild =
      .error (.other "process `rustfmt` failed: ") ∧
    "process `rustfmt` failed: " ≠ "process `rustfmt` failed" ∧
    "process `rustfmt` failed: " ≠ "process 'rustfmt' failed" :=
  ⟨rfl, by decide, by decide⟩

/-- C5 (amended): on a non-zero exit, only a FAILED read of the first
stderr line (or an absent stderr handle) is silently ignored, yielding
the bare tool-failure message with no suffix; a read that succeeds but
yields no content still produces the suffixed message `: ` with an empty
diagnostic. -/
theorem c5_amended_read_failure (child : Child) (status : Nat)
    (hw : child.waitResult = .ok status) (hs : status ≠ 0) :
    ((∃ r e, child.stderr = some r ∧ r.readLineResult = .error e) →
      await_child RUSTFMT child = .error (.other "process `rustfmt` failed")) ∧
    (child.stderr = none →
      await_child RUSTFMT child = .error (.other "process `rustfmt` failed")) ∧
    ((∃ r, child.stderr = some r ∧ r.readLineResult = .ok "") →
      await_child RUSTFMT child = .error (.other "process `rustfmt` failed: ")) := by
  refine ⟨?_, ?_, ?_⟩
  · rintro ⟨r, e, hst, hr⟩
    simp [await_child, hw, hst, hr, hs]
    rfl
  · intro hst
    simp [await_child, hw, hst, hs]
    rfl
  · rintro ⟨r, hst, hr⟩
    simp [await_child, hw, hst, hr, hs, trimChars]
    rfl

/-- C5 witness: the amended statement applied to the concrete child whose
stderr read fails. -/
theorem c5_amended_read_failure_witness :
    await_child RUSTFMT readFailChild = .error (.other "process `rustfmt` failed") :=
  (c5_amended_read_failure readFailChild 1 rfl (by decide)).1
    ⟨⟨.error (.sys 5)⟩, .sys 5, rfl, rfl⟩
